import Mathlib

/-!
Shallow embedding of the `MetadataExtractor/extraction-container` repository.

Source files embedded:
* `src/extractor/datasets.py` — `RasterDataset` (constructor, `distance`,
  `mode`, `median`, `get_sample_area_data`) and `VectorDataset`
  (constructor, `get_sample_area_data`, `get_nearest_feature`,
  `get_predominant_feature`).
* `src/extractor/extractor.py` — `define_feature_for_sample_areas` and the
  buffer-radius computation in `main`.

Modelling decisions for the Earth Engine primitives the code calls:
* A raster image band is a partial function on an integer pixel grid
  (`Pt → Option ℚ`); `none` is a masked pixel.  A multiband image maps a
  band name to such a function.
* The euclidean distance kernel of `RasterDataset.distance` is modelled on
  the grid by the Chebyshev metric `chebDist` (an executable stand-in for
  the kernel's metric; the claims under verification depend only on
  `chebDist p p = 0`, non-negativity, and the fixed 1000-unit radius).
* Vector feature geometries are closed axis-aligned boxes with rational
  coordinates, so that two boxes can intersect in a degenerate (zero-area)
  box, which models features touching only at a boundary.
* Earth Engine `null` is modelled by `Option`: `first()` of an empty
  collection is `none`, `get` of a missing property is `none`, and a value
  derived from `none` propagates `none`.
* `ee.Algorithms.If` converts its condition to a boolean with Earth
  Engine's truthiness (both `null` and `0` are falsy), modelled by
  `eeTruthy`/`eeIf`.
* Feature properties are an association list `List (String × Option V)`;
  `set` prepends (the observable behaviour through `get` is
  replace-or-insert, as in Earth Engine), `get` reads the newest entry.
* `reduceRegion(scale=100, maxPixels=1e9)` parameters do not change which
  pixels of the discrete grid participate, so they have no counterpart in
  the model.
-/

/-- Pixel locations of the raster grid (`datasets.py` works in projected
map units; the model discretises them). -/
abbrev Pt : Type := ℤ × ℤ

/-- A multiband Earth Engine image: band name to pixel function. -/
abbrev EEImage : Type := String → Pt → Option ℚ

/-- A property value of a vector feature or sample record: a number or a
string. -/
inductive PVal where
  | num : ℚ → PVal
  | str : String → PVal
deriving DecidableEq

/-- An `ee.Feature`: a geometry of type `G` plus properties valued in `V`.
`none` in a stored property models an Earth Engine `null` value. -/
structure Feature (G V : Type) where
  geom : G
  props : List (String × Option V)
deriving DecidableEq

/-- Property lookup: the most recently set binding wins; a missing key
reads as `null` (`none`), as `ee.Feature.get` does. -/
def getProp {V : Type} : List (String × Option V) → String → Option V
  | [], _ => none
  | (k, v) :: rest, key => if key = k then v else getProp rest key

/-- `ee.Feature.set(key, v)`: returns a new feature with the property
bound; the input feature is unchanged (the embedding is purely
functional, so neither the dataset nor any layer feature can be
mutated by a query). -/
def Feature.set {G V : Type} (f : Feature G V) (key : String) (v : Option V) : Feature G V :=
  Feature.mk f.geom ((key, v) :: f.props)

/-- `ee.Feature.get(key)`. -/
def Feature.get {G V : Type} (f : Feature G V) (key : String) : Option V :=
  getProp f.props key

/-- A vector geometry: a closed axis-aligned box (integer corners; the
claims under verification need no finer coordinates, and closed boxes
still intersect degenerately when they only touch). -/
structure Box where
  xmin : ℤ
  xmax : ℤ
  ymin : ℤ
  ymax : ℤ
deriving DecidableEq

/-- Whether two closed boxes intersect at all (boundary contact counts,
as in `filterBounds`). -/
def Box.intersectsB (a b : Box) : Bool :=
  decide (max a.xmin b.xmin ≤ min a.xmax b.xmax) &&
  decide (max a.ymin b.ymin ≤ min a.ymax b.ymax)

/-- Geometric intersection of two closed boxes (`ee.Feature.intersection`
on geometries); degenerate when the boxes only touch. -/
def Box.inter (a b : Box) : Box :=
  Box.mk (max a.xmin b.xmin) (min a.xmax b.xmax) (max a.ymin b.ymin) (min a.ymax b.ymax)

/-- `ee.Geometry.area`: the area of the box, 0 for an empty or degenerate
box. -/
def Box.area (b : Box) : ℤ :=
  if b.xmin ≤ b.xmax ∧ b.ymin ≤ b.ymax then (b.xmax - b.xmin) * (b.ymax - b.ymin) else 0

/-- Gap between two closed intervals `[lo1, hi1]` and `[lo2, hi2]` (0 when
they overlap). -/
def Box.gap (lo1 hi1 lo2 hi2 : ℤ) : ℤ := max 0 (max (lo2 - hi1) (lo1 - hi2))

/-- Distance between two closed boxes, used by the `withinDistance` join
filter of `get_nearest_feature` (Chebyshev-style, 0 iff the boxes
intersect). -/
def Box.dist (a b : Box) : ℤ :=
  max (Box.gap a.xmin a.xmax b.xmin b.xmax) (Box.gap a.ymin a.ymax b.ymin b.ymax)

/-- Vector features of the embedding. -/
abbrev VFeat : Type := Feature Box PVal

/-- `VectorDataset` of `datasets.py` lines 131-146: the feature layer, the
property key of interest, and the output column name.  (`map_params` is
display-only configuration and is dropped.) -/
structure VectorDataset where
  data : List VFeat
  property : String
  name : String
deriving DecidableEq

/-- `VectorDataset.__init__`: `name` defaults to `property` when unset. -/
def VectorDataset.ofSnippet (snippet : List VFeat) (property : String) (name : Option String) : VectorDataset :=
  VectorDataset.mk snippet property (name.getD property)

/-- Read a numeric property value, ignoring nulls and strings (as a
numeric aggregate does). -/
def pvNum : Option PVal → Option ℚ
  | some (PVal.num q) => some q
  | _ => none

/-- Maximum of a list of rationals (`none` on the empty list). -/
def maxQ : List ℚ → Option ℚ
  | [] => none
  | x :: xs => some (match maxQ xs with | none => x | some m => max x m)

/-- `ee.FeatureCollection.aggregate_max(key)` over the numeric values of
`key`. -/
def aggregate_max (fc : List VFeat) (key : String) : Option ℚ :=
  maxQ (fc.filterMap (fun f => pvNum (getProp f.props key)))

/-- The per-overlap annotation of `get_predominant_feature` (line 221):
store the intersection's area under the property key `"area"`
(overwriting any homonymous property of the feature). -/
def areaAnnotate (f : VFeat) : VFeat :=
  f.set "area" (some (PVal.num (f.geom.area : ℚ)))

/-- `ee.Filter.gte('area', m)` on a feature. -/
def areaGteB (f : VFeat) (m : ℚ) : Bool :=
  match getProp f.props "area" with
  | some (PVal.num a) => decide (m ≤ a)
  | _ => false

/-- `VectorDataset.get_predominant_feature` (lines 213-228): annotate each
overlap with its area, take the maximal area, return the first overlap
whose area is ≥ the maximum.  `first()` of an empty collection is `none`. -/
def VectorDataset.get_predominant_feature (overlaps : List VFeat) : Option VFeat :=
  let withArea := overlaps.map areaAnnotate
  match aggregate_max withArea "area" with
  | none => none
  | some m => (withArea.filter (fun f => areaGteB f m)).head?

/-- First element minimising `g` (`ee.Join.saveBest` keeps the single best
match; ties keep the earlier element, a concrete choice for the join's
unspecified tie order). -/
def argminFirst {α : Type} (g : α → ℤ) : List α → Option α
  | [] => none
  | x :: xs =>
    match argminFirst g xs with
    | none => some x
    | some y => if g y < g x then some y else some x

/-- `VectorDataset.get_nearest_feature` (lines 180-211): among the layer
features within 10000 units of the sample area, the nearest one; `none`
when the join finds no match (modelling the null that `first()` and
`get('closestFeature')` propagate). -/
def VectorDataset.get_nearest_feature (ds : VectorDataset) (sample_area : VFeat) : Option VFeat :=
  let within := ds.data.filter (fun f => decide (Box.dist f.geom sample_area.geom ≤ 10000))
  argminFirst (fun f => Box.dist f.geom sample_area.geom) within

/-- `feature.intersection(sample_area.geometry())`: replace the geometry by
the intersection, keep the properties. -/
def interWith (g : Box) (f : VFeat) : VFeat :=
  Feature.mk (Box.inter f.geom g) f.props

/-- The `overlaps` collection of `VectorDataset.get_sample_area_data`
(lines 156-158): layer features whose geometry intersects the sample
geometry, each replaced by its intersection with the sample geometry. -/
def VectorDataset.overlapsOf (ds : VectorDataset) (sample_area : VFeat) : List VFeat :=
  (ds.data.filter (fun f => Box.intersectsB f.geom sample_area.geom)).map
    (interWith sample_area.geom)

/-- `VectorDataset.get_sample_area_data` (lines 151-178): resolve by the
overlap count — exactly one: that overlap's property; zero: the nearest
feature's property; otherwise: the predominant overlap's property. -/
def VectorDataset.get_sample_area_data (ds : VectorDataset) (sample_area : VFeat) : VFeat :=
  let overlaps := ds.overlapsOf sample_area
  if overlaps.length = 1 then
    sample_area.set ds.name (overlaps.head?.bind (fun f => f.get ds.property))
  else if overlaps.length = 0 then
    sample_area.set ds.name ((ds.get_nearest_feature sample_area).bind (fun f => f.get ds.property))
  else
    sample_area.set ds.name ((VectorDataset.get_predominant_feature overlaps).bind (fun f => f.get ds.property))

/-- Chebyshev distance on the pixel grid (the model's metric for the
distance kernel of `RasterDataset.distance`). -/
def chebDist (p q : Pt) : ℤ := max |p.1 - q.1| |p.2 - q.2|

/-- `ee.Geometry.buffer(r)` on a pixel-set geometry: all grid points within
distance `r` of the set. -/
def bufferF (g : Finset Pt) (r : ℚ) : Finset Pt :=
  g.biUnion (fun q => Finset.Icc (q.1 - ⌊r⌋, q.2 - ⌊r⌋) (q.1 + ⌊r⌋, q.2 + ⌊r⌋))

/-- The derived distance-to-coverage surface of `RasterDataset.distance`
(lines 85-88): at each grid point, the distance to the nearest valid
pixel if one lies within the 1000-unit search radius, else masked.
It is 0 wherever the image itself has data. -/
def dist_image (data : Pt → Option ℚ) (p : Pt) : Option ℚ :=
  let cands := (Finset.Icc (p.1 - 1000, p.2 - 1000) (p.1 + 1000, p.2 + 1000)).filter
    (fun q => (data q).isSome)
  if h : cands.Nonempty then some ((cands.inf' h (chebDist p) : ℤ) : ℚ) else none

/-- `reduceRegion(ee.Reducer.mean(), geometry)`: mean of the unmasked
pixel values inside the geometry, `none` when there are none. -/
def reduce_mean (img : Pt → Option ℚ) (geom : Finset Pt) : Option ℚ :=
  let cells := geom.filter (fun p => (img p).isSome)
  if cells.Nonempty then some ((cells.sum (fun p => (img p).getD 0)) / cells.card) else none

/-- `reduceRegion(ee.Reducer.mode(), geometry)`: a most frequent unmasked
pixel value inside the geometry (smallest such value, a concrete choice
for the reducer's unspecified tie order), `none` when there are none. -/
def reduce_mode (img : Pt → Option ℚ) (geom : Finset Pt) : Option ℚ :=
  let vals : Multiset ℚ := ((geom.filter (fun p => (img p).isSome)).val).map (fun p => (img p).getD 0)
  let cand := vals.toFinset.filter (fun v => ∀ w ∈ vals.toFinset, vals.count w ≤ vals.count v)
  if h : cand.Nonempty then some (cand.min' h) else none

/-- Median of an already sorted list (`none` on the empty list; midpoint of
the two central elements for even length). -/
def medianOfSorted (l : List ℚ) : Option ℚ :=
  if l.length = 0 then none
  else if l.length % 2 = 1 then some (l.getD (l.length / 2) 0)
  else some ((l.getD (l.length / 2 - 1) 0 + l.getD (l.length / 2) 0) / 2)

/-- `reduceRegion(ee.Reducer.median(), geometry)`: median of the unmasked
pixel values inside the geometry, `none` when there are none. -/
def reduce_median (img : Pt → Option ℚ) (geom : Finset Pt) : Option ℚ :=
  medianOfSorted (((geom.filter (fun p => (img p).isSome)).val.map (fun p => (img p).getD 0)).sort (· ≤ ·))

/-- Earth Engine truthiness of a possibly-null number: `null` and `0` are
falsy. -/
def eeTruthy : Option ℚ → Bool
  | none => false
  | some v => decide (v ≠ 0)

/-- `ee.Algorithms.If(c, t, e)`. -/
def eeIf {α : Type} (c : Option ℚ) (t e : α) : α := if eeTruthy c then t else e

/-- `ee.Number.eq(b)` on a possibly-null number (1 for equal, 0 for not;
null propagates). -/
def eeNumEq (a : Option ℚ) (b : ℚ) : Option ℚ :=
  a.map (fun x => if x = b then 1 else 0)

/-- `RasterDataset` of `datasets.py` lines 4-33: output column name, the
categorical flag, display parameters, and the selected single-band
image (band renaming is captured by keeping only the pixel function). -/
structure RasterDataset where
  name : String
  categorical : Bool
  map_params : List (String × ℚ)
  data : Pt → Option ℚ

/-- `snippet.select([band], [self.name])` for a single image. -/
def imgSelect (img : EEImage) (band : String) : Pt → Option ℚ := img band

/-- `ee.ImageCollection.mosaic()`: at each pixel, the value of the last
image in the collection that is unmasked there. -/
def mosaicPix (l : List (Pt → Option ℚ)) : Pt → Option ℚ :=
  fun p => l.reverse.findSome? (fun f => f p)

/-- `RasterDataset.__init__` on an `ee.Image` snippet (line 31). -/
def RasterDataset.ofImage (snippet : EEImage) (band : String) (name : Option String) (categorical : Bool) (map_params : List (String × ℚ)) : RasterDataset :=
  RasterDataset.mk (name.getD band) categorical map_params (imgSelect snippet band)

/-- `RasterDataset.__init__` on an `ee.ImageCollection` snippet (line 29):
select the band on every image, then mosaic. -/
def RasterDataset.ofCollection (snippet : List EEImage) (band : String) (name : Option String) (categorical : Bool) (map_params : List (String × ℚ)) : RasterDataset :=
  RasterDataset.mk (name.getD band) categorical map_params
    (mosaicPix (snippet.map (fun i => imgSelect i band)))

/-- Raster-side sample areas: a pixel-set geometry with numeric
properties. -/
abbrev RFeat : Type := Feature (Finset Pt) ℚ

/-- `RasterDataset.distance` (lines 68-98): mean over the geometry of the
distance-to-coverage surface. -/
def RasterDataset.distance (ds : RasterDataset) (geometry : Finset Pt) : Option ℚ :=
  reduce_mean (dist_image ds.data) geometry

/-- `RasterDataset.mode` (lines 100-113). -/
def RasterDataset.mode (ds : RasterDataset) (geometry : Finset Pt) : Option ℚ :=
  reduce_mode ds.data geometry

/-- `RasterDataset.median` (lines 115-128). -/
def RasterDataset.median (ds : RasterDataset) (geometry : Finset Pt) : Option ℚ :=
  reduce_median ds.data geometry

/-- The nested `ee.Algorithms.If` of `RasterDataset.get_sample_area_data`
(lines 48-59) choosing the geometry to reduce over.  The buffer radius
is the (necessarily non-null, there) distance value. -/
def selectGeometry (distance : Option ℚ) (g : Finset Pt) : Finset Pt :=
  eeIf distance (eeIf (eeNumEq distance 0) g (bufferF g (distance.getD 0))) g

/-- `RasterDataset.get_sample_area_data` (lines 35-66). -/
def RasterDataset.get_sample_area_data (ds : RasterDataset) (sample_area : RFeat) : RFeat :=
  let distance := ds.distance sample_area.geom
  let geometry := selectGeometry distance sample_area.geom
  let result := if ds.categorical then ds.mode geometry else ds.median geometry
  sample_area.set ds.name result

/-- One cleaned input row of `extractor.py` (`sample_id`, `longitude`,
`latitude`, `sample_date`, `spatial_uncertainty`). -/
structure Sample where
  sample_id : String
  longitude : ℚ
  latitude : ℚ
  sample_date : String
  spatial_uncertainty : ℚ
deriving DecidableEq

/-- `ee.Geometry.Point(lon, lat).buffer(br)`: a disc. -/
structure Disc where
  center : ℚ × ℚ
  radius : ℚ
deriving DecidableEq

/-- Sample-area features produced by the builder. -/
abbrev SFeat : Type := Feature Disc PVal

/-- Insertion into a sorted list of rationals. -/
def insertSorted (x : ℚ) : List ℚ → List ℚ
  | [] => [x]
  | y :: ys => if x ≤ y then x :: y :: ys else y :: insertSorted x ys

/-- Insertion sort on rationals. -/
def sortQ (l : List ℚ) : List ℚ := l.foldr insertSorted []

/-- `pandas.Series.median`: middle of the sorted values (mean of the two
central values for even length). -/
def medianQ (xs : List ℚ) : ℚ :=
  (medianOfSorted (sortQ xs)).getD 0

/-- The feature built for one sample by `define_feature_for_sample_areas`
(`extractor.py` lines 59-67). -/
def sampleFeature (s : Sample) (br : ℚ) : SFeat :=
  (((((Feature.mk (Disc.mk (s.longitude, s.latitude) br) []).set
      "name" (some (PVal.str s.sample_id))).set
      "sample_date" (some (PVal.str s.sample_date))).set
      "longitude" (some (PVal.num s.longitude))).set
      "latitude" (some (PVal.num s.latitude))).set
      "spatial_uncertainty" (some (PVal.num s.spatial_uncertainty))

/-- `define_feature_for_sample_areas(samples, br)` (lines 52-70). -/
def define_feature_for_sample_areas (samples : List Sample) (br : ℚ) : List SFeat :=
  samples.map (fun s => sampleFeature s br)

/-- The sample areas built by `main` (lines 449-469): the buffer radius
passed to the builder is the median of the `spatial_uncertainty`
column. -/
def main_sample_areas (samples : List Sample) : List SFeat :=
  define_feature_for_sample_areas samples (medianQ (samples.map (fun s => s.spatial_uncertainty)))

/-- Concrete layer for the C2 counterexample: two features carrying their
own `"area"` property, queried with `property = "area"`. -/
def c2xf1 : VFeat := Feature.mk (Box.mk 0 4 0 10) [("area", some (PVal.num 999))]

/-- Second feature of the C2 counterexample layer; its intersection with
the sample box has the strictly largest area. -/
def c2xf2 : VFeat := Feature.mk (Box.mk 5 10 0 10) [("area", some (PVal.num 1))]

/-- The C2 counterexample dataset: `property` is the key `"area"` that
`get_predominant_feature` overwrites internally. -/
def c2xds : VectorDataset := VectorDataset.mk [c2xf1, c2xf2] "area" "eco"

/-- Sample area shared shape for the vector examples: the box
`[0,10] × [0,10]`. -/
def c2xsa : VFeat := Feature.mk (Box.mk 0 10 0 10) []

/-- Witness layer feature for amended C2 (intersection area 40). -/
def c2f1 : VFeat := Feature.mk (Box.mk 0 4 0 10) [("p", some (PVal.num 1))]

/-- Witness layer feature for amended C2 (intersection area 50, the
strict maximum). -/
def c2f2 : VFeat := Feature.mk (Box.mk 5 10 0 10) [("p", some (PVal.num 2))]

/-- Witness dataset for amended C2. -/
def c2ds : VectorDataset := VectorDataset.mk [c2f1, c2f2] "p" "eco"

/-- Witness sample area for amended C2. -/
def c2sa : VFeat := Feature.mk (Box.mk 0 10 0 10) []

/-- Witness layer feature for C3: farther than the 10000-unit join
radius from the sample area. -/
def c3far : VFeat := Feature.mk (Box.mk 100000 100001 0 1) [("p", some (PVal.num 7))]

/-- Witness dataset for C3. -/
def c3ds : VectorDataset := VectorDataset.mk [c3far] "p" "n"

/-- Witness sample area for C3. -/
def c3sa : VFeat := Feature.mk (Box.mk 0 10 0 10) []

/-- Witness raster for C5: a layer with no valid pixel anywhere. -/
def c5ds : RasterDataset := RasterDataset.mk "b" false [] (fun _ => none)

/-- Witness sample area for C5: the single pixel `(0, 0)`. -/
def c5sa : RFeat := Feature.mk ({((0 : ℤ), (0 : ℤ))} : Finset Pt) []

/-- Witness input sample for C8. -/
def c8s : Sample := Sample.mk "a" 1 2 "2020-01-01" 7

/-- Witness overlap for C9 (area 5, first in order). -/
def c9f1 : VFeat := Feature.mk (Box.mk 0 1 0 5) [("p", some (PVal.num 1))]

/-- Witness overlap for C9 (also area 5, second in order). -/
def c9f2 : VFeat := Feature.mk (Box.mk 0 5 0 1) [("p", some (PVal.num 2))]

/-- Witness layer feature for C10: touches the sample box only along the
edge `x = 10` (zero-area intersection). -/
def c10touch : VFeat := Feature.mk (Box.mk 10 20 0 10) [("p", some (PVal.num 3))]

/-- Witness layer feature for C10: genuinely overlapping (area 50). -/
def c10ov : VFeat := Feature.mk (Box.mk 0 5 0 10) [("p", some (PVal.num 4))]

/-- Witness dataset for C10. -/
def c10ds : VectorDataset := VectorDataset.mk [c10touch, c10ov] "p" "n"

/-- Witness sample area for C10. -/
def c10sa : VFeat := Feature.mk (Box.mk 0 10 0 10) []

/-! ## Helper lemmas -/

/-- Filtering after mapping is mapping after filtering the composed
predicate. -/
theorem filter_of_map {α β : Type} (f : α → β) (p : β → Bool) (l : List α) :
    (l.map f).filter p = (l.filter (fun a => p (f a))).map f := by
  induction l with
  | nil => rfl
  | cons x xs ih =>
    by_cases h : p (f x) = true <;>
      simp [List.filter_cons, h, ih]

/-- `filterMap` after mapping composes the functions. -/
theorem filterMap_of_map {α β γ : Type} (f : α → β) (g : β → Option γ) (l : List α) :
    (l.map f).filterMap g = l.filterMap (fun a => g (f a)) := by
  induction l with
  | nil => rfl
  | cons x xs ih => simp [List.filterMap_cons, ih]

/-- `filterMap` with a total function is `map`. -/
theorem filterMap_some_of {α β : Type} (f : α → β) (l : List α) :
    l.filterMap (fun a => some (f a)) = l.map f := by
  induction l with
  | nil => rfl
  | cons x xs ih => simp [List.filterMap_cons, ih]

/-- `head?` commutes with `map`. -/
theorem head?_of_map {α β : Type} (f : α → β) (l : List α) :
    (l.map f).head? = l.head?.map f := by
  cases l <;> rfl

/-- The head of a filtered list is the first element satisfying the
predicate. -/
theorem head?_filter_eq_find? {α : Type} (p : α → Bool) (l : List α) :
    (l.filter p).head? = l.find? p := by
  induction l with
  | nil => rfl
  | cons x xs ih =>
    by_cases h : p x = true <;>
      simp [List.filter_cons, List.find?_cons, h, ih]

/-- A nonempty list all of whose elements are `c` has head `c`. -/
theorem head?_all_eq {α : Type} {l : List α} {c : α} (hmem : c ∈ l)
    (hall : ∀ x ∈ l, x = c) : l.head? = some c := by
  cases l with
  | nil => simp at hmem
  | cons x xs => simpa using hall x (List.mem_cons_self x xs)

/-- Pointwise equal predicates filter equally. -/
theorem filter_congr_mem {α : Type} {p q : α → Bool} {l : List α}
    (h : ∀ x ∈ l, p x = q x) : l.filter p = l.filter q := by
  induction l with
  | nil => rfl
  | cons x xs ih =>
    have hx := h x (List.mem_cons_self x xs)
    have ht := ih (fun y hy => h y (List.mem_cons_of_mem x hy))
    by_cases hp : p x = true
    · have hq : q x = true := hx ▸ hp
      simp [List.filter_cons, hp, hq, ht]
    · have hq : ¬ q x = true := fun hc => hp (hx ▸ hc)
      simp [List.filter_cons, hp, hq, ht]

/-- The value of `maxQ` is a member of the list. -/
theorem maxQ_mem {l : List ℚ} {m : ℚ} (h : maxQ l = some m) : m ∈ l := by
  induction l generalizing m with
  | nil => simp [maxQ] at h
  | cons x xs ih =>
    rw [maxQ] at h
    cases hx : maxQ xs with
    | none =>
      rw [hx] at h
      simp at h
      simp [h]
    | some mx =>
      rw [hx] at h
      simp at h
      rcases max_choice x mx with h1 | h1
      · rw [h1] at h
        simp [h]
      · rw [h1] at h
        exact List.mem_cons_of_mem x (h ▸ ih hx)

/-- `maxQ` bounds every member of the list. -/
theorem maxQ_le {l : List ℚ} {m : ℚ} (h : maxQ l = some m) :
    ∀ x ∈ l, x ≤ m := by
  induction l generalizing m with
  | nil => simp
  | cons y xs ih =>
    rw [maxQ] at h
    intro x hx
    cases hmx : maxQ xs with
    | none =>
      have hxs : xs = [] := by
        cases xs with
        | nil => rfl
        | cons a as => simp [maxQ] at hmx
      rw [hmx] at h
      simp at h
      subst hxs
      simp at hx
      simp [hx, h]
    | some mx =>
      rw [hmx] at h
      simp at h
      rcases List.mem_cons.mp hx with h1 | h1
      · exact h ▸ (h1 ▸ le_max_left y mx)
      · exact h ▸ le_trans (ih hmx x h1) (le_max_right y mx)

/-- `maxQ` of a nonempty list is defined. -/
theorem maxQ_of_ne_nil {l : List ℚ} (h : l ≠ []) : ∃ m, maxQ l = some m := by
  cases l with
  | nil => exact absurd rfl h
  | cons x xs => exact ⟨_, rfl⟩

/-- `getD` after `map` (in-bounds indices). -/
theorem getD_of_map {α β : Type} (f : α → β) (l : List α) (i : ℕ)
    (dA : α) (dB : β) (h : i < l.length) :
    (l.map f).getD i dB = f (l.getD i dA) := by
  induction l generalizing i with
  | nil => simp at h
  | cons x xs ih =>
    cases i with
    | zero => rfl
    | succ n => exact ih n (Nat.lt_of_succ_lt_succ h)

/-- Membership in the 1000-unit search box is the 1000-unit Chebyshev
ball. -/
theorem mem_searchBox_iff (p q : Pt) :
    q ∈ Finset.Icc ((p.1 - 1000, p.2 - 1000) : Pt) (p.1 + 1000, p.2 + 1000) ↔
      chebDist p q ≤ 1000 := by
  rcases p with ⟨a, b⟩
  rcases q with ⟨c, d⟩
  simp only [Finset.mem_Icc, Prod.mk_le_mk, chebDist, max_le_iff, abs_le]
  omega

/-- `VectorDataset.get_sample_area_data` written with its three branches
exposed. -/
theorem vector_gsad_branches (ds : VectorDataset) (sa : VFeat) :
    ds.get_sample_area_data sa =
      if (ds.overlapsOf sa).length = 1 then
        sa.set ds.name ((ds.overlapsOf sa).head?.bind (fun f => f.get ds.property))
      else if (ds.overlapsOf sa).length = 0 then
        sa.set ds.name ((ds.get_nearest_feature sa).bind (fun f => f.get ds.property))
      else
        sa.set ds.name ((VectorDataset.get_predominant_feature (ds.overlapsOf sa)).bind (fun f => f.get ds.property)) := rfl

/-! ## Claim theorems -/

/-- C1: `RasterDataset.get_sample_area_data` reduces over the geometry
selected from the distance probe: "no value" leaves the sample geometry
unchanged, distance 0 leaves it unchanged, and a nonzero distance `d`
buffers the sample geometry outward by `d`. -/
theorem raster_geometry_selection_policy (ds : RasterDataset) (sa : RFeat) :
    ds.get_sample_area_data sa = sa.set ds.name
        (if ds.categorical then ds.mode (selectGeometry (ds.distance sa.geom) sa.geom)
         else ds.median (selectGeometry (ds.distance sa.geom) sa.geom)) ∧
    selectGeometry (ds.distance sa.geom) sa.geom =
        (match ds.distance sa.geom with
         | none => sa.geom
         | some d => if d = 0 then sa.geom else bufferF sa.geom d) := by
  refine ⟨rfl, ?_⟩
  cases h : ds.distance sa.geom with
  | none => rfl
  | some d =>
    by_cases hd : d = 0
    · simp [selectGeometry, eeIf, eeTruthy, eeNumEq, hd]
    · simp [selectGeometry, eeIf, eeTruthy, eeNumEq, hd]

/-- C4: the reduction statistic is decided by the construction-time
`categorical` flag alone — with the flag set the reduction is `mode`,
with it unset the reduction is `median`, for every query. -/
theorem raster_reduction_statistic_by_flag (ds : RasterDataset) (sa : RFeat) :
    (RasterDataset.mk ds.name true ds.map_params ds.data).get_sample_area_data sa
        = sa.set ds.name (ds.mode (selectGeometry (ds.distance sa.geom) sa.geom)) ∧
    (RasterDataset.mk ds.name false ds.map_params ds.data).get_sample_area_data sa
        = sa.set ds.name (ds.median (selectGeometry (ds.distance sa.geom) sa.geom)) :=
  ⟨rfl, rfl⟩

/-- C6: a `RasterDataset` built from a single image and one built from the
one-element collection holding that image (same band, name, flag)
return identical `get_sample_area_data` results on every sample area. -/
theorem raster_single_image_eq_singleton_collection (img : EEImage) (band : String)
    (nm : Option String) (cat : Bool) (mp : List (String × ℚ)) (sa : RFeat) :
    (RasterDataset.ofImage img band nm cat mp).get_sample_area_data sa
      = (RasterDataset.ofCollection [img] band nm cat mp).get_sample_area_data sa := by
  have hdata : mosaicPix ([img].map (fun i => imgSelect i band)) = imgSelect img band := by
    funext p
    simp only [List.map_cons, List.map_nil, mosaicPix, List.reverse_cons, List.reverse_nil,
      List.nil_append, List.findSome?_cons, List.findSome?_nil]
    cases imgSelect img band p <;> rfl
  have hds : RasterDataset.ofCollection [img] band nm cat mp
      = RasterDataset.ofImage img band nm cat mp := by
    simp only [RasterDataset.ofCollection, RasterDataset.ofImage, hdata]
  rw [hds]

/-- C7: every query, raster or vector, returns the input sample area with
its geometry unchanged and exactly one property binding added, under
the dataset's name key; all pre-existing bindings are kept as they
were.  (The embedding is purely functional, so the dataset and the
layer features cannot be mutated by a query.) -/
theorem get_sample_area_data_frame_conditions (rds : RasterDataset) (ra : RFeat)
    (vds : VectorDataset) (va : VFeat) :
    (∃ v, rds.get_sample_area_data ra = Feature.mk ra.geom ((rds.name, v) :: ra.props)) ∧
    (∃ w, vds.get_sample_area_data va = Feature.mk va.geom ((vds.name, w) :: va.props)) := by
  constructor
  · exact ⟨_, rfl⟩
  · rw [vector_gsad_branches]
    by_cases h1 : (vds.overlapsOf va).length = 1
    · rw [if_pos h1]
      exact ⟨_, rfl⟩
    · rw [if_neg h1]
      by_cases h0 : (vds.overlapsOf va).length = 0
      · rw [if_pos h0]
        exact ⟨_, rfl⟩
      · rw [if_neg h0]
        exact ⟨_, rfl⟩

/-- `RasterDataset.get_sample_area_data` with the reduction choice
exposed. -/
theorem raster_gsad_unfold (ds : RasterDataset) (sa : RFeat) :
    ds.get_sample_area_data sa = sa.set ds.name
      (if ds.categorical then ds.mode (selectGeometry (ds.distance sa.geom) sa.geom)
       else ds.median (selectGeometry (ds.distance sa.geom) sa.geom)) := rfl

/-- C10: the overlap count branching `VectorDataset.get_sample_area_data`
counts every layer feature whose geometry intersects the sample
geometry at all, zero-area boundary contact included; so one
boundary-touching feature plus one genuinely overlapping feature
(two intersecting features) routes resolution to the
predominant-feature branch, not the exactly-one branch. -/
theorem overlap_count_includes_zero_area_touch (ds : VectorDataset) (sa : VFeat)
    (h2 : (ds.data.filter (fun f => Box.intersectsB f.geom sa.geom)).length = 2)
    (_hz : ∃ f ∈ ds.data, Box.intersectsB f.geom sa.geom = true ∧ (Box.inter f.geom sa.geom).area = 0)
    (_hp : ∃ f ∈ ds.data, Box.intersectsB f.geom sa.geom = true ∧ 0 < (Box.inter f.geom sa.geom).area) :
    (ds.overlapsOf sa).length
        = (ds.data.filter (fun f => Box.intersectsB f.geom sa.geom)).length ∧
    ds.get_sample_area_data sa
        = sa.set ds.name ((VectorDataset.get_predominant_feature (ds.overlapsOf sa)).bind
            (fun f => f.get ds.property)) := by
  have hlen : (ds.overlapsOf sa).length
      = (ds.data.filter (fun f => Box.intersectsB f.geom sa.geom)).length := by
    simp [VectorDataset.overlapsOf]
  refine ⟨hlen, ?_⟩
  have hn : (ds.overlapsOf sa).length = 2 := hlen.trans h2
  rw [vector_gsad_branches, hn]
  norm_num

/-- Witness for C10: a feature touching the sample box only along an edge
plus an overlapping one; the call resolves through
`get_predominant_feature`. -/
theorem overlap_count_includes_zero_area_touch_witness :
    ((c10ds.data.filter (fun f => Box.intersectsB f.geom c10sa.geom)).length = 2 ∧
     (∃ f ∈ c10ds.data, Box.intersectsB f.geom c10sa.geom = true ∧ (Box.inter f.geom c10sa.geom).area = 0) ∧
     (∃ f ∈ c10ds.data, Box.intersectsB f.geom c10sa.geom = true ∧ 0 < (Box.inter f.geom c10sa.geom).area)) ∧
    ((c10ds.overlapsOf c10sa).length
        = (c10ds.data.filter (fun f => Box.intersectsB f.geom c10sa.geom)).length ∧
     c10ds.get_sample_area_data c10sa
        = c10sa.set c10ds.name ((VectorDataset.get_predominant_feature (c10ds.overlapsOf c10sa)).bind
            (fun f => f.get c10ds.property))) :=
  ⟨⟨by decide, by decide, by decide⟩,
   overlap_count_includes_zero_area_touch c10ds c10sa (by decide) (by decide) (by decide)⟩

/-- C3: when no layer feature intersects the sample geometry and none lies
within the 10000-unit join radius, `VectorDataset.get_sample_area_data`
attaches "no value" (null) for the sample/dataset pair instead of
failing (the query is total and returns the sample area with a null
binding). -/
theorem vector_no_feature_in_range_yields_no_value (ds : VectorDataset) (sa : VFeat)
    (hov : ∀ f ∈ ds.data, Box.intersectsB f.geom sa.geom = false)
    (hfar : ∀ f ∈ ds.data, ¬ Box.dist f.geom sa.geom ≤ 10000) :
    ds.get_sample_area_data sa = sa.set ds.name none ∧
    (ds.get_sample_area_data sa).get ds.name = none := by
  have hf : ds.data.filter (fun f => Box.intersectsB f.geom sa.geom) = [] := by
    apply List.filter_eq_nil_iff.mpr
    intro f hfm
    simp [hov f hfm]
  have hempty : ds.overlapsOf sa = [] := by
    simp [VectorDataset.overlapsOf, hf]
  have hwithin : ds.data.filter (fun f => decide (Box.dist f.geom sa.geom ≤ 10000)) = [] := by
    apply List.filter_eq_nil_iff.mpr
    intro f hfm
    simpa using hfar f hfm
  have hnear : ds.get_nearest_feature sa = none := by
    simp [VectorDataset.get_nearest_feature, hwithin, argminFirst]
  have hres : ds.get_sample_area_data sa = sa.set ds.name none := by
    rw [vector_gsad_branches, hempty]
    simp [hnear]
  refine ⟨hres, ?_⟩
  rw [hres]
  simp [Feature.set, Feature.get, getProp]

/-- Witness for C3: a single layer feature about 99990 units away from the
sample box. -/
theorem vector_no_feature_in_range_yields_no_value_witness :
    (∀ f ∈ c3ds.data, Box.intersectsB f.geom c3sa.geom = false) ∧
    (∀ f ∈ c3ds.data, ¬ Box.dist f.geom c3sa.geom ≤ 10000) ∧
    (c3ds.get_sample_area_data c3sa = c3sa.set c3ds.name none ∧
     (c3ds.get_sample_area_data c3sa).get c3ds.name = none) :=
  ⟨by decide, by decide,
   vector_no_feature_in_range_yields_no_value c3ds c3sa (by decide) (by decide)⟩

/-- C5: when every point of the sample geometry is farther than the
1000-unit search radius from every valid pixel of the layer, the
distance probe returns "no value" (null, not zero), and
`RasterDataset.get_sample_area_data` attaches "no value". -/
theorem raster_beyond_search_radius_yields_no_value (ds : RasterDataset) (sa : RFeat)
    (h : ∀ p ∈ sa.geom, ∀ q : Pt, (ds.data q).isSome = true → 1000 < chebDist p q) :
    ds.distance sa.geom = none ∧
    ds.get_sample_area_data sa = sa.set ds.name none := by
  have hdist_pt : ∀ p ∈ sa.geom, dist_image ds.data p = none := by
    intro p hp
    have hcand : ((Finset.Icc ((p.1 - 1000, p.2 - 1000) : Pt) (p.1 + 1000, p.2 + 1000)).filter
        (fun q => (ds.data q).isSome)) = ∅ := by
      apply Finset.filter_eq_empty_iff.mpr
      intro q hq hsome
      have h1 := (mem_searchBox_iff p q).mp hq
      have h2 := h p hp q hsome
      omega
    simp only [dist_image, hcand]
    rw [dif_neg]
    exact Finset.not_nonempty_empty
  have hcells : sa.geom.filter (fun p => (dist_image ds.data p).isSome) = ∅ := by
    apply Finset.filter_eq_empty_iff.mpr
    intro p hp hsome
    rw [hdist_pt p hp] at hsome
    simp at hsome
  have hdist : ds.distance sa.geom = none := by
    simp only [RasterDataset.distance, reduce_mean, hcells]
    rw [if_neg]
    exact Finset.not_nonempty_empty
  have hdatacells : sa.geom.filter (fun p => (ds.data p).isSome) = ∅ := by
    apply Finset.filter_eq_empty_iff.mpr
    intro p hp hsome
    have h2 := h p hp p hsome
    have h0 : chebDist p p = 0 := by
      simp [chebDist]
    rw [h0] at h2
    exact absurd h2 (by norm_num)
  have hmode : reduce_mode ds.data sa.geom = none := by
    simp [reduce_mode, hdatacells]
  have hmedian : reduce_median ds.data sa.geom = none := by
    simp [reduce_median, hdatacells, medianOfSorted]
  refine ⟨hdist, ?_⟩
  rw [raster_gsad_unfold, hdist]
  have hsel : selectGeometry none sa.geom = sa.geom := rfl
  rw [hsel]
  cases hc : ds.categorical
  · simp [RasterDataset.median, hmedian]
  · simp [RasterDataset.mode, hmode]

/-- Witness for C5: a raster layer with no valid pixel anywhere (the
hypothesis holds vacuously) and a one-pixel sample area. -/
theorem raster_beyond_search_radius_yields_no_value_witness :
    (∀ p ∈ c5sa.geom, ∀ q : Pt, (c5ds.data q).isSome = true → 1000 < chebDist p q) ∧
    (c5ds.distance c5sa.geom = none ∧
     c5ds.get_sample_area_data c5sa = c5sa.set c5ds.name none) := by
  have hh : ∀ p ∈ c5sa.geom, ∀ q : Pt, (c5ds.data q).isSome = true → 1000 < chebDist p q := by
    intro p hp q hq
    simp [c5ds] at hq
  exact ⟨hh, raster_beyond_search_radius_yields_no_value c5ds c5sa hh⟩

/-- C8: the sample-area builder driven by `main` buffers every sample's
point by one single radius — the median of the `spatial_uncertainty`
column — not by that sample's own uncertainty. -/
theorem sample_area_buffer_radius_is_global_median (samples : List Sample) (i : ℕ)
    (h : i < samples.length) :
    (main_sample_areas samples).length = samples.length ∧
    ((main_sample_areas samples).getD i (Feature.mk (Disc.mk (0, 0) 0) [])).geom
      = Disc.mk ((samples.getD i (Sample.mk "" 0 0 "" 0)).longitude,
                 (samples.getD i (Sample.mk "" 0 0 "" 0)).latitude)
          (medianQ (samples.map (fun s => s.spatial_uncertainty))) := by
  constructor
  · simp [main_sample_areas, define_feature_for_sample_areas]
  · simp only [main_sample_areas, define_feature_for_sample_areas]
    rw [getD_of_map _ _ _ (Sample.mk "" 0 0 "" 0) _ h]
    rfl

/-- Witness for C8: one input sample with uncertainty 7; its area's buffer
radius is `medianQ [7] = 7`. -/
theorem sample_area_buffer_radius_is_global_median_witness :
    0 < ([c8s] : List Sample).length ∧
    ((main_sample_areas [c8s]).length = ([c8s] : List Sample).length ∧
     ((main_sample_areas [c8s]).getD 0 (Feature.mk (Disc.mk (0, 0) 0) [])).geom
       = Disc.mk ((([c8s] : List Sample).getD 0 (Sample.mk "" 0 0 "" 0)).longitude,
                  (([c8s] : List Sample).getD 0 (Sample.mk "" 0 0 "" 0)).latitude)
           (medianQ (([c8s] : List Sample).map (fun s => s.spatial_uncertainty)))) :=
  ⟨by decide, sample_area_buffer_radius_is_global_median [c8s] 0 (by decide)⟩

/-- `get_predominant_feature` in closed form: the first overlap whose area
reaches the maximal overlap area, annotated with its area. -/
theorem pred_feature_eq (ol : List VFeat) :
    VectorDataset.get_predominant_feature ol =
      match maxQ (ol.map (fun f => ((f.geom.area : ℚ)))) with
      | none => none
      | some m =>
        ((ol.filter (fun f => decide (m ≤ ((f.geom.area : ℚ))))).head?).map areaAnnotate := by
  have hagg : aggregate_max (ol.map areaAnnotate) "area"
      = maxQ (ol.map (fun f => ((f.geom.area : ℚ)))) := by
    unfold aggregate_max
    rw [filterMap_of_map]
    have hpt : (fun f : VFeat => pvNum (getProp (areaAnnotate f).props "area"))
        = fun f : VFeat => some ((f.geom.area : ℚ)) := by
      funext f
      rfl
    rw [hpt, filterMap_some_of]
  show (match aggregate_max (ol.map areaAnnotate) "area" with
    | none => none
    | some m => ((ol.map areaAnnotate).filter (fun f => areaGteB f m)).head?)
      = match maxQ (ol.map (fun f => ((f.geom.area : ℚ)))) with
        | none => none
        | some m =>
          ((ol.filter (fun f => decide (m ≤ ((f.geom.area : ℚ))))).head?).map areaAnnotate
  rw [hagg]
  cases hm : maxQ (ol.map (fun f => ((f.geom.area : ℚ)))) with
  | none => rfl
  | some m =>
    have hfl : (ol.map areaAnnotate).filter (fun f => areaGteB f m)
        = (ol.filter (fun f => decide (m ≤ ((f.geom.area : ℚ))))).map areaAnnotate := by
      rw [filter_of_map]
      rfl
    show ((ol.map areaAnnotate).filter (fun f => areaGteB f m)).head?
        = ((ol.filter (fun f => decide (m ≤ ((f.geom.area : ℚ))))).head?).map areaAnnotate
    rw [hfl, head?_of_map]

/-- Overlap lists: filtering the mapped intersections by area is mapping
the filtered sources. -/
theorem overlaps_filter_area (sa : VFeat) (L : List VFeat) (m : ℚ) :
    (L.map (interWith sa.geom)).filter (fun f => decide (m ≤ ((f.geom.area : ℚ))))
      = (L.filter (fun g => decide (m ≤ (((Box.inter g.geom sa.geom).area : ℚ))))).map
          (interWith sa.geom) := by
  rw [filter_of_map]
  rfl

/-- Overlap lists: the areas of the mapped intersections. -/
theorem overlaps_map_area (sa : VFeat) (L : List VFeat) :
    (L.map (interWith sa.geom)).map (fun f => ((f.geom.area : ℚ)))
      = L.map (fun g => (((Box.inter g.geom sa.geom).area : ℚ))) := by
  rw [List.map_map]
  rfl

/-- Counterexample for C2 as stated: with `property = "area"` the internal
area annotation of `get_predominant_feature` shadows the feature's own
`"area"` property, so the attached value is the intersection area (50)
rather than the winning feature's property value (1). -/
theorem vector_predominant_property_area_shadowed :
    (c2xds.data.filter (fun f => Box.intersectsB f.geom c2xsa.geom)).length = 2 ∧
    (Box.inter c2xf2.geom c2xsa.geom).area = 50 ∧
    (Box.inter c2xf1.geom c2xsa.geom).area = 40 ∧
    c2xf2.get c2xds.property = some (PVal.num 1) ∧
    (c2xds.get_sample_area_data c2xsa).get c2xds.name = some (PVal.num 50) ∧
    (c2xds.get_sample_area_data c2xsa).get c2xds.name ≠ c2xf2.get c2xds.property := by
  decide

/-- C2 (amended): provided the dataset's `property` key is not the
reserved `"area"` key that `get_predominant_feature` uses internally,
a sample area overlapping more than one feature receives the property
value of the feature whose intersection with the sample geometry has
the strictly largest area. -/
theorem vector_predominant_largest_area (ds : VectorDataset) (sa : VFeat) (fstar : VFeat)
    (hprop : ds.property ≠ "area")
    (hcount : 1 < (ds.data.filter (fun f => Box.intersectsB f.geom sa.geom)).length)
    (hmem : fstar ∈ ds.data)
    (hint : Box.intersectsB fstar.geom sa.geom = true)
    (hmax : ∀ g ∈ ds.data, Box.intersectsB g.geom sa.geom = true → g ≠ fstar →
      (Box.inter g.geom sa.geom).area < (Box.inter fstar.geom sa.geom).area) :
    ds.get_sample_area_data sa = sa.set ds.name (fstar.get ds.property) := by
  have hfL : fstar ∈ ds.data.filter (fun f => Box.intersectsB f.geom sa.geom) :=
    List.mem_filter.mpr ⟨hmem, hint⟩
  have hov : ds.overlapsOf sa
      = (ds.data.filter (fun f => Box.intersectsB f.geom sa.geom)).map (interWith sa.geom) := rfl
  have hlen : (ds.overlapsOf sa).length
      = (ds.data.filter (fun f => Box.intersectsB f.geom sa.geom)).length := by
    rw [hov, List.length_map]
  have h1 : ¬ (ds.overlapsOf sa).length = 1 := by
    rw [hlen]
    omega
  have h0 : ¬ (ds.overlapsOf sa).length = 0 := by
    rw [hlen]
    omega
  rw [vector_gsad_branches, if_neg h1, if_neg h0, pred_feature_eq]
  have hareas : (ds.overlapsOf sa).map (fun f => ((f.geom.area : ℚ)))
      = (ds.data.filter (fun f => Box.intersectsB f.geom sa.geom)).map
          (fun g => (((Box.inter g.geom sa.geom).area : ℚ))) := by
    rw [hov, overlaps_map_area]
  have hMmem : (((Box.inter fstar.geom sa.geom).area : ℚ))
      ∈ (ds.overlapsOf sa).map (fun f => ((f.geom.area : ℚ))) := by
    rw [hareas]
    exact List.mem_map_of_mem _ hfL
  obtain ⟨m, hm⟩ := maxQ_of_ne_nil
    (l := (ds.overlapsOf sa).map (fun f => ((f.geom.area : ℚ))))
    (by
      intro hnil
      rw [hnil] at hMmem
      simp at hMmem)
  have hMle : (((Box.inter fstar.geom sa.geom).area : ℚ)) ≤ m := maxQ_le hm _ hMmem
  have hmmem := maxQ_mem hm
  rw [hareas] at hmmem
  obtain ⟨g0, hg0L, hg0⟩ := List.mem_map.mp hmmem
  have hmeq : m = (((Box.inter fstar.geom sa.geom).area : ℚ)) := by
    by_cases hgf : g0 = fstar
    · rw [← hg0, hgf]
    · have hlt := hmax g0 (List.mem_filter.mp hg0L).1 (List.mem_filter.mp hg0L).2 hgf
      have hltq : m < (((Box.inter fstar.geom sa.geom).area : ℚ)) := by
        rw [← hg0]
        exact_mod_cast hlt
      exact absurd (lt_of_le_of_lt hMle hltq) (lt_irrefl _)
  rw [hm, hmeq]
  show sa.set ds.name
      ((((ds.overlapsOf sa).filter
          (fun f => decide ((((Box.inter fstar.geom sa.geom).area : ℚ)) ≤ ((f.geom.area : ℚ))))).head?.map
            areaAnnotate).bind (fun f => f.get ds.property))
    = sa.set ds.name (fstar.get ds.property)
  rw [hov, overlaps_filter_area]
  have hPf : fstar ∈ (ds.data.filter (fun f => Box.intersectsB f.geom sa.geom)).filter
      (fun g => decide ((((Box.inter fstar.geom sa.geom).area : ℚ))
        ≤ (((Box.inter g.geom sa.geom).area : ℚ)))) := by
    apply List.mem_filter.mpr
    exact ⟨hfL, decide_eq_true (le_refl _)⟩
  have hall : ∀ x ∈ (ds.data.filter (fun f => Box.intersectsB f.geom sa.geom)).filter
      (fun g => decide ((((Box.inter fstar.geom sa.geom).area : ℚ))
        ≤ (((Box.inter g.geom sa.geom).area : ℚ)))), x = fstar := by
    intro x hx
    obtain ⟨hxL, hxP⟩ := List.mem_filter.mp hx
    by_contra hne
    have hlt := hmax x (List.mem_filter.mp hxL).1 (List.mem_filter.mp hxL).2 hne
    have hge : (((Box.inter fstar.geom sa.geom).area : ℚ))
        ≤ (((Box.inter x.geom sa.geom).area : ℚ)) := of_decide_eq_true hxP
    have hltq : (((Box.inter x.geom sa.geom).area : ℚ))
        < (((Box.inter fstar.geom sa.geom).area : ℚ)) := by
      exact_mod_cast hlt
    exact absurd (lt_of_le_of_lt hge hltq) (lt_irrefl _)
  rw [head?_of_map, head?_all_eq hPf hall]
  have hval : (areaAnnotate (interWith sa.geom fstar)).get ds.property = fstar.get ds.property := by
    show getProp (("area", some (PVal.num (((interWith sa.geom fstar).geom.area : ℚ))))
        :: fstar.props) ds.property = getProp fstar.props ds.property
    rw [getProp, if_neg hprop]
  show sa.set ds.name ((areaAnnotate (interWith sa.geom fstar)).get ds.property)
    = sa.set ds.name (fstar.get ds.property)
  rw [hval]

/-- Witness for amended C2: intersection areas 40 and 50; the value
attached is the property of the area-50 feature. -/
theorem vector_predominant_largest_area_witness :
    (c2ds.property ≠ "area" ∧
     1 < (c2ds.data.filter (fun f => Box.intersectsB f.geom c2sa.geom)).length ∧
     c2f2 ∈ c2ds.data ∧
     Box.intersectsB c2f2.geom c2sa.geom = true ∧
     (∀ g ∈ c2ds.data, Box.intersectsB g.geom c2sa.geom = true → g ≠ c2f2 →
       (Box.inter g.geom c2sa.geom).area < (Box.inter c2f2.geom c2sa.geom).area)) ∧
    c2ds.get_sample_area_data c2sa = c2sa.set c2ds.name (c2f2.get c2ds.property) :=
  ⟨⟨by decide, by decide, by decide, by decide, by decide⟩,
   vector_predominant_largest_area c2ds c2sa c2f2 (by decide) (by decide) (by decide)
     (by decide) (by decide)⟩

/-- C9: when several overlaps share the maximal intersection area,
`get_predominant_feature` returns the first overlap, in the
collection's order, whose area equals the maximum (annotated with its
area, as the function does to every overlap).  The function is pure,
so two calls on the same input trivially return the same feature. -/
theorem predominant_tie_breaks_first (ol : List VFeat) (m : ℚ)
    (hm : maxQ (ol.map (fun f => ((f.geom.area : ℚ)))) = some m) :
    ∃ f, ol.find? (fun g => decide (((g.geom.area : ℚ)) = m)) = some f ∧
      VectorDataset.get_predominant_feature ol = some (areaAnnotate f) := by
  have hle : ∀ g ∈ ol, ((g.geom.area : ℚ)) ≤ m := by
    intro g hg
    exact maxQ_le hm _ (List.mem_map_of_mem _ hg)
  have hcongr : ol.filter (fun g => decide (m ≤ ((g.geom.area : ℚ))))
      = ol.filter (fun g => decide (((g.geom.area : ℚ)) = m)) := by
    apply filter_congr_mem
    intro g hg
    by_cases h : ((g.geom.area : ℚ)) = m
    · simp [h]
    · have hnle : ¬ m ≤ ((g.geom.area : ℚ)) := fun hc => h (le_antisymm (hle g hg) hc)
      simp [h, hnle]
  have hmm := maxQ_mem hm
  obtain ⟨g0, hg0, hg0e⟩ := List.mem_map.mp hmm
  have hfind : ∃ f, ol.find? (fun g => decide (((g.geom.area : ℚ)) = m)) = some f := by
    rw [← head?_filter_eq_find?]
    have hg0f : g0 ∈ ol.filter (fun g => decide (((g.geom.area : ℚ)) = m)) :=
      List.mem_filter.mpr ⟨hg0, decide_eq_true hg0e⟩
    cases hh : (ol.filter (fun g => decide (((g.geom.area : ℚ)) = m))).head? with
    | none =>
      rw [List.head?_eq_none_iff] at hh
      rw [hh] at hg0f
      simp at hg0f
    | some f => exact ⟨f, rfl⟩
  obtain ⟨f, hf⟩ := hfind
  refine ⟨f, hf, ?_⟩
  rw [pred_feature_eq, hm]
  show ((ol.filter (fun g => decide (m ≤ ((g.geom.area : ℚ))))).head?).map areaAnnotate
      = some (areaAnnotate f)
  rw [hcongr, head?_filter_eq_find?, hf]
  rfl

/-- Witness for C9: two overlaps of equal area 5; the first one in the
collection's order is returned. -/
theorem predominant_tie_breaks_first_witness :
    maxQ ([c9f1, c9f2].map (fun f => ((f.geom.area : ℚ)))) = some 5 ∧
    (∃ f, [c9f1, c9f2].find? (fun g => decide (((g.geom.area : ℚ)) = 5)) = some f ∧
      VectorDataset.get_predominant_feature [c9f1, c9f2] = some (areaAnnotate f)) :=
  ⟨by decide, predominant_tie_breaks_first [c9f1, c9f2] 5 (by decide)⟩
